import Mathlib

/-!
Shallow embedding of `src/build/trace_ref.py` (class `AvidaTracer`): the two
trace parsers `parse_mabe_trace` / `parse_avida_trace` and the divergence
comparator `compare_org_trace`, together with the canonical state model
`OrgState`.  File input is modelled as a list of lines (strings); Python's
fallible operations (`int(...)`, list indexing) are modelled in the `Except`
monad with `"ValueError"` / `"IndexError"` payloads naming the Python
exception that would be raised.
-/

namespace TraceRef

/-- Decidable equality on `Except`, so concrete runs can be settled by `decide`. -/
instance {ε α : Type} [DecidableEq ε] [DecidableEq α] : DecidableEq (Except ε α) :=
  fun a b =>
  match a, b with
  | .ok x, .ok y =>
    if h : x = y then isTrue (congrArg Except.ok h)
    else isFalse (fun c => h (Except.ok.inj c))
  | .error x, .error y =>
    if h : x = y then isTrue (congrArg Except.error h)
    else isFalse (fun c => h (Except.error.inj c))
  | .ok _, .error _ => isFalse (fun c => Except.noConfusion c)
  | .error _, .ok _ => isFalse (fun c => Except.noConfusion c)

/-! ### Python string primitives (ASCII fragment used by the trace grammars) -/

/-- `str.strip()` for whitespace: drop leading and trailing whitespace chars. -/
def pyStrip (s : String) : String :=
  String.mk (((s.data.dropWhile Char.isWhitespace).reverse.dropWhile
    Char.isWhitespace).reverse)

/-- `str.split()` with no argument: maximal runs of non-whitespace characters. -/
def pySplit (s : String) : List String :=
  ((s.data.splitOnP Char.isWhitespace).filter (· ≠ [])).map String.mk

/-- Python slice `s[:n]` (clipped, never fails). -/
def strTake (s : String) (n : Nat) : String := String.mk (s.data.take n)

/-- Python slice `s[n:]` (clipped, never fails). -/
def strDrop (s : String) (n : Nat) : String := String.mk (s.data.drop n)

/-- Python slice `s[1:-1]`: the string without its first and last character. -/
def strInner (s : String) : String := String.mk ((s.data.drop 1).dropLast)

/-- Python slice `s[:-1]`: the string without its last character. -/
def strDropLast (s : String) : String := String.mk s.data.dropLast

/-- `s[0]`; the grammars only apply it to nonempty tokens, default is arbitrary. -/
def strFirst (s : String) : Char := s.data.headD ' '

/-- `s[-1]`; the grammars only apply it to nonempty tokens, default is arbitrary. -/
def strLast (s : String) : Char := s.data.getLastD ' '

/-- `str.isnumeric()` restricted to ASCII digits (the only case these inputs use). -/
def pyIsNumeric (s : String) : Bool := !s.data.isEmpty && s.data.all Char.isDigit

/-- Value of a digit string (caller guarantees all characters are digits). -/
def digitsVal (cs : List Char) : Nat :=
  cs.foldl (fun a c => a * 10 + (c.toNat - 48)) 0

/-- `int(s)` on a string `str.isnumeric()` already accepted: always succeeds. -/
def natFromDigits (s : String) : Nat := digitsVal s.data

/-- `int(s)` for tokens (whitespace-free): optional sign then one or more
digits, `none` models the `ValueError` Python raises otherwise. -/
def pyInt (s : String) : Option Int :=
  match s.data with
  | [] => none
  | '-' :: rest =>
      if !rest.isEmpty && rest.all Char.isDigit then some (-(digitsVal rest : Int))
      else none
  | '+' :: rest =>
      if !rest.isEmpty && rest.all Char.isDigit then some (digitsVal rest : Int)
      else none
  | cs =>
      if cs.all Char.isDigit then some (digitsVal cs : Int) else none

/-! ### Python `dict` with insertion order (string keys, int values) -/

abbrev HeadMap := List (String × Int)

/-- `k in d` for a Python dict. -/
def dictMem (d : HeadMap) (k : String) : Bool := d.any (fun p => p.1 == k)

/-- `d[k] = v`: update in place if the key exists, else append (insertion order). -/
def dictInsert (d : HeadMap) (k : String) (v : Int) : HeadMap :=
  if dictMem d k then d.map (fun p => if p.1 == k then (k, v) else p)
  else d ++ [(k, v)]

/-- `d[k]` as an option (the comparator guards every access with `in`). -/
def dictGet? (d : HeadMap) (k : String) : Option Int :=
  (d.find? (fun p => p.1 == k)).map (·.2)

/-! ### Canonical state model (`OrgState`) and the Trace Store -/

/-- One CPU snapshot: `OrgState(idx, heads, regs)` from `trace_ref.py`.
Both grammars only ever produce non-negative organism indices
(digit-only bracketed tokens in Format-B, the literal 0 in Format-A). -/
structure OrgState where
  idx : Nat
  heads : HeadMap
  regs : List Int
  deriving DecidableEq, Repr

/-- The Trace Store: `self.org_states`, a Python list of per-organism lists. -/
abbrev Store := List (List OrgState)

/-- `while len(states) <= i: states.append([])`. -/
def growTo (states : Store) (i : Nat) : Store :=
  states ++ List.replicate (i + 1 - states.length) []

/-- The flush idiom of both parsers: grow the store with empty sequences up to
index `i`, then `org_states[i].append(st)`. -/
def flushOrg (states : Store) (i : Nat) (st : OrgState) : Store :=
  let g := growTo states i
  g.set i (g.getD i [] ++ [st])

/-- Parser running state: the store plus the in-progress organism
(`org_idx` is `None` until the first boundary), heads map and registers. -/
structure ParseState where
  org_states : Store
  org_idx : Option Nat
  heads : HeadMap
  regs : List Int
  deriving DecidableEq, Repr

def initState : ParseState := ⟨[], none, [], []⟩

/-- `while len(regs) <= i: regs.append(0)` then `regs[i] = v`
(non-negative index, as produced by Format-B's digit-only register tokens). -/
def setRegNat (regs : List Int) (i : Nat) (v : Int) : List Int :=
  (regs ++ List.replicate (i + 1 - regs.length) 0).set i v

/-- Same growth loop then `regs[i] = v` for a possibly negative index `i`
(Format-A computes `ord(c) - ord('A')`): growth happens only when
`len <= i`; the assignment uses Python indexing, where a negative index
counts from the end and an out-of-range one raises `IndexError`. -/
def setRegInt (regs : List Int) (i : Int) (v : Int) : Except String (List Int) :=
  let g := if (regs.length : Int) ≤ i then
      regs ++ List.replicate (i.toNat + 1 - regs.length) 0
    else regs
  let j : Int := if i < 0 then i + g.length else i
  if 0 ≤ j ∧ j < (g.length : Int) then .ok (g.set j.toNat v)
  else .error "IndexError"

/-! ### Format-B parser (`parse_mabe_trace`) -/

/-- The head-line scan of `parse_mabe_trace` (the `while True` loop over
`line_parts` starting at `idx = 0`), recast on the token list from position
`idx`: while the current token ends in a colon, does not start with an open
parenthesis, and is not the last token (`idx < len(line_parts) - 1`, i.e. a
token follows), record the colon-stripped token as a head name with the next
token's integer value and advance two tokens; otherwise stop.  Reading
`line_parts[idx]` past the end of the list is Python's `IndexError`
(the empty-list case); a non-integer value token is `ValueError`. -/
def headScan : List String → HeadMap → Except String HeadMap
  | [], _ => .error "IndexError"
  | tok :: rem, heads =>
    if strLast tok == ':' && strFirst tok != '(' && !rem.isEmpty then
      match rem with
      | [] => .error "IndexError"
      | tok2 :: rem2 =>
        match pyInt tok2 with
        | none => .error "ValueError"
        | some v => headScan rem2 (dictInsert heads (strDropLast tok) v)
    else .ok heads

/-- One line of `parse_mabe_trace`: strip, skip if empty, split, then the
`[<digits>]`-token branch (boundary if the line has exactly one token,
register assignment otherwise) or the `IP:` head-line branch. -/
def mabeStep (st : ParseState) (rawLine : String) : Except String ParseState :=
  let line := pyStrip rawLine
  if line.data.isEmpty then .ok st
  else
    match pySplit line with
    | [] => .error "IndexError"
    | t0 :: rest =>
      if strFirst t0 == '[' && strLast t0 == ']' && pyIsNumeric (strInner t0) then
        if rest.isEmpty then
          let states := match st.org_idx with
            | some i => flushOrg st.org_states i ⟨i, st.heads, st.regs⟩
            | none => st.org_states
          .ok ⟨states, some (natFromDigits (strInner t0)), [], []⟩
        else
          match pyInt (rest.headD "") with
          | none => .error "ValueError"
          | some v =>
            .ok { st with regs := setRegNat st.regs (natFromDigits (strInner t0)) v }
      else if t0 == "IP:" then
        match headScan (t0 :: rest) st.heads with
        | .error e => .error e
        | .ok hs => .ok { st with heads := hs }
      else .ok st

/-- The line loop of `parse_mabe_trace` over the file's lines. -/
def mabeFold (lines : List String) : Except String ParseState :=
  lines.foldlM mabeStep initState

/-- The end-of-input flush shared by both parsers ("Save the final org!"). -/
def finalFlush (st : ParseState) : Store :=
  match st.org_idx with
  | some i => flushOrg st.org_states i ⟨i, st.heads, st.regs⟩
  | none => st.org_states

/-- `parse_mabe_trace`: line loop then final flush; the resulting
`self.org_states` or the Python exception that aborts the parse. -/
def parse_mabe_trace (lines : List String) : Except String Store :=
  (mabeFold lines).map finalFlush

/-! ### Format-A parser (`parse_avida_trace`) -/

/-- One token of the `CPU` line loop: `IP:<int>` sets `heads['IP']`;
`<letter>X:<int>` sets register `ord(letter) - ord('A')` (growing with
zero-fill); any other token is ignored. -/
def avidaCPUTok (acc : HeadMap × List Int) (tok : String) :
    Except String (HeadMap × List Int) :=
  if tok.data.length > 3 && strTake tok 3 == "IP:" then
    match pyInt (strDrop tok 3) with
    | none => .error "ValueError"
    | some v => .ok (dictInsert acc.1 "IP" v, acc.2)
  else if tok.data.length > 3 && strTake (strDrop tok 1) 2 == "X:" then
    match pyInt (strDrop tok 3) with
    | none => .error "ValueError"
    | some v =>
      (setRegInt acc.2 (((strFirst tok).toNat : Int) - 65) v).map (acc.1, ·)
  else .ok acc

/-- One token of the `R-Head:` line loop: tokens of length at least 8 whose
first six characters are `R-Head` / `W-Head` / `F-Head` set heads
`RH` / `WH` / `FH` from the characters after position 7. -/
def avidaHeadTok (heads : HeadMap) (tok : String) : Except String HeadMap :=
  if tok.data.length ≥ 8 then
    if strTake tok 6 == "R-Head" then
      match pyInt (strDrop tok 7) with
      | none => .error "ValueError"
      | some v => .ok (dictInsert heads "RH" v)
    else if strTake tok 6 == "W-Head" then
      match pyInt (strDrop tok 7) with
      | none => .error "ValueError"
      | some v => .ok (dictInsert heads "WH" v)
    else if strTake tok 6 == "F-Head" then
      match pyInt (strDrop tok 7) with
      | none => .error "ValueError"
      | some v => .ok (dictInsert heads "FH" v)
    else .ok heads
  else .ok heads

/-- One line of `parse_avida_trace`: strip, skip if empty, split; first the
boundary `if` (single token `U:-1`: flush the in-progress organism and reset
with index 0), then — on the resulting state — the separate `if`/`elif` for the
`CPU` line and the `R-Head:`-prefixed line. -/
def avidaStep (st : ParseState) (rawLine : String) : Except String ParseState :=
  let line := pyStrip rawLine
  if line.data.isEmpty then .ok st
  else
    match pySplit line with
    | [] => .error "IndexError"
    | t0 :: rest =>
      let parts := t0 :: rest
      let st1 : ParseState :=
        if parts.length == 1 && t0 == "U:-1" then
          let states := match st.org_idx with
            | some i => flushOrg st.org_states i ⟨i, st.heads, st.regs⟩
            | none => st.org_states
          ⟨states, some 0, [], []⟩
        else st
      if t0 == "CPU" then
        match parts.foldlM avidaCPUTok (st1.heads, st1.regs) with
        | .error e => .error e
        | .ok (hs, rs) => .ok { st1 with heads := hs, regs := rs }
      else if strTake t0 7 == "R-Head:" then
        match parts.foldlM avidaHeadTok st1.heads with
        | .error e => .error e
        | .ok hs => .ok { st1 with heads := hs }
      else .ok st1

/-- The line loop of `parse_avida_trace` over the file's lines. -/
def avidaFold (lines : List String) : Except String ParseState :=
  lines.foldlM avidaStep initState

/-- `parse_avida_trace`: line loop then final flush. -/
def parse_avida_trace (lines : List String) : Except String Store :=
  (avidaFold lines).map finalFlush

/-! ### Divergence comparator (`compare_org_trace`) -/

/-- The diagnostic event printed by `compare_org_trace` when it stops: reaching
the end of the other trace, a register mismatch, a head missing from the other
snapshot, or a head value mismatch — each carrying the step it is reported at. -/
inductive CmpEvent where
  | exhausted (step : Nat)
  | regMismatch (r : Nat) (step : Nat)
  | headMissing (name : String) (step : Nat)
  | headMismatch (name : String) (step : Nat)
  deriving DecidableEq, Repr

/-- The step index carried by a diagnostic event (what `compare_org_trace`
actually returns in each divergence case). -/
def CmpEvent.step : CmpEvent → Nat
  | .exhausted s => s
  | .regMismatch _ s => s
  | .headMissing _ s => s
  | .headMismatch _ s => s

/-- The register loop `for reg_idx in range(6)` of `compare_org_trace`, at
current index `r` with `fuel` iterations left: Python evaluates
`self_state.regs[reg_idx]` and `other_state.regs[reg_idx]` unconditionally, so
an index beyond either list's length raises `IndexError`; the first unequal
pair stops the comparison. -/
def regLoopAux (a b : List Int) (step : Nat) : Nat → Nat → Except String (Option CmpEvent)
  | _, 0 => .ok none
  | r, fuel + 1 =>
    match a[r]?, b[r]? with
    | some av, some bv =>
      if av ≠ bv then .ok (some (.regMismatch r step))
      else regLoopAux a b step (r + 1) fuel
    | _, _ => .error "IndexError"

/-- The register loop `for reg_idx in range(6)` started at index 0. -/
def regLoop (a b : List Int) (step : Nat) : Except String (Option CmpEvent) :=
  regLoopAux a b step 0 6

/-- The head loop `for head_name in self_state.heads.keys()` of
`compare_org_trace`: iterate the first snapshot's heads in insertion order; a
key absent from the second snapshot stops with "missing", an unequal value
stops with "mismatch". -/
def headLoop (a b : HeadMap) (step : Nat) : Option CmpEvent :=
  match a with
  | [] => none
  | (k, v) :: rest =>
    match dictGet? b k with
    | none => some (.headMissing k step)
    | some w => if v ≠ w then some (.headMismatch k step) else headLoop rest b step

/-- The body of one iteration of the step loop: the register loop, then (if no
register event) the head loop. -/
def checkStep (x y : OrgState) (step : Nat) : Except String (Option CmpEvent) :=
  match regLoop x.regs y.regs step with
  | .error e => .error e
  | .ok (some e) => .ok (some e)
  | .ok none => .ok (headLoop x.heads y.heads step)

/-- The step loop of `compare_org_trace` in lockstep: `xs` is the rest of the
first trace, `ys` the rest of the second; an exhausted second trace is
reported before the snapshots are compared; falling off the end of the first
trace reports no event (Python falls through and returns `None`). -/
def compareSteps : List OrgState → List OrgState → Nat →
    Except String (Option CmpEvent)
  | [], _, _ => .ok none
  | _ :: _, [], step => .ok (some (.exhausted step))
  | x :: xs, y :: ys, step =>
    match checkStep x y step with
    | .error e => .error e
    | .ok (some e) => .ok (some e)
    | .ok none => compareSteps xs ys (step + 1)

/-- `compare_org_trace` with the printed diagnostic made explicit: the event
(if any) that the method prints before returning.  `self.org_states[org_idx]`
is read to build the step range, so an invalid index is `IndexError`; the
other store's list is only read inside the loop, so it is touched (and can
raise) only when the first trace is nonempty. -/
def compare_run (s o : Store) (i : Nat) : Except String (Option CmpEvent) :=
  match s[i]? with
  | none => .error "IndexError"
  | some [] => .ok none
  | some (x :: xs) =>
    match o[i]? with
    | none => .error "IndexError"
    | some ys => compareSteps (x :: xs) ys 0

/-- The value `compare_org_trace` actually returns: the step index at which a
diagnostic was printed, or `none` (Python's implicit `None`) on full
agreement.  The category of the event is only printed, not returned. -/
def compare_org_trace (s o : Store) (i : Nat) : Except String (Option Nat) :=
  (compare_run s o i).map (fun r => r.map CmpEvent.step)

/-! ### Predicates used to state the claims -/

/-- No mismatch among the compared registers (indices 0..5) of two snapshots:
wherever both registers exist, the values agree. -/
def regsClean (a b : List Int) : Bool :=
  (List.range 6).all (fun r =>
    match a[r]?, b[r]? with
    | some va, some vb => va == vb
    | _, _ => true)

/-- No head divergence from the first snapshot's point of view: every head of
the first snapshot is present in the second with an equal value (so neither
the "missing" nor the "mismatch" category fires). -/
def headsClean (a b : HeadMap) : Bool :=
  a.all (fun kv => dictGet? b kv.1 == some kv.2)

/-- No mismatch among the compared registers and heads of a step's snapshots. -/
def stepClean (x y : OrgState) : Bool :=
  regsClean x.regs y.regs && headsClean x.heads y.heads

/-- A line that `parse_avida_trace` treats as a start-of-update boundary:
after stripping and splitting it is the single token `U:-1`. -/
def isAvidaBoundary (l : String) : Bool := pySplit (pyStrip l) == ["U:-1"]

/-! ### Concrete snapshots and stores used in counterexamples and witnesses -/

/-- A snapshot with no heads and no registers (exactly what a Format-B
boundary immediately followed by another boundary produces). -/
def emptySnap : OrgState := ⟨0, [], []⟩

/-- A snapshot with six registers, as the comparator's register loop needs. -/
def fullSnap : OrgState := ⟨0, [("IP", 3)], [1, 2, 3, 4, 5, 6]⟩

/-- Like `fullSnap` but with a different value in register 0. -/
def fullSnapB : OrgState := ⟨0, [("IP", 3)], [9, 2, 3, 4, 5, 6]⟩

/-- First snapshot of the C8 counterexample: head `IP` first, then `FH`. -/
def headSnapA : OrgState := ⟨0, [("IP", 1), ("FH", 5)], [0, 0, 0, 0, 0, 0]⟩

/-- Second snapshot of the C8 counterexample: `IP` present with a different
value, `FH` absent, registers identical to `headSnapA`. -/
def headSnapB : OrgState := ⟨0, [("IP", 2)], [0, 0, 0, 0, 0, 0]⟩

/-- One-organism store with a single snapshot that has no registers. -/
def shortStore : Store := [[emptySnap]]

/-! ## Claim theorems -/

/-- C1 (counterexample): on the spec's Format-B scenario-2 input
`[0]`, `[0] 7`, `IP: IP: 2 RH: 1`, `[1]`, the parser does not produce the
claimed snapshot at the `[1]` boundary: the head line's scan starts at token
index 0, so it takes `IP:` as the head name and tries `int("IP:")` on the
following token, aborting the whole parse with a `ValueError`. -/
theorem c1_scenario_raises :
    parse_mabe_trace ["[0]", "[0] 7", "IP: IP: 2 RH: 1", "[1]"] =
      .error "ValueError" := by decide

/-- C1 (amended): with the head line written as the grammar actually expects —
pairs starting at the leading token itself and a trailing non-pair token
(here `(end)`, which starts with an open parenthesis) stopping the scan — the
flush triggered by the `[1]` boundary yields exactly one snapshot for organism
0 with registers `[7]` and heads `IP ↦ 2`, `RH ↦ 1`, and the full parse then
also flushes organism 1's empty running state at end of input. -/
theorem c1_amended_scenario :
    mabeFold ["[0]", "[0] 7", "IP: 2 RH: 1 (end)", "[1]"] =
      .ok ⟨[[⟨0, [("IP", 2), ("RH", 1)], [7]⟩]], some 1, [], []⟩ ∧
    parse_mabe_trace ["[0]", "[0] 7", "IP: 2 RH: 1 (end)", "[1]"] =
      .ok [[⟨0, [("IP", 2), ("RH", 1)], [7]⟩], [⟨1, [], []⟩]] := by decide

/-- C2 (counterexample): not every failing line is skipped silently — a
Format-B register line whose value token is not an integer (`[0] foo`) makes
`parse_mabe_trace` raise a `ValueError` and abort the parse. -/
theorem c2_register_value_raises :
    parse_mabe_trace ["[0]", "[0] foo"] = .error "ValueError" := by decide

/-- C2 (amended): lines with unrecognized prefixes or shapes are skipped
without error and yield an empty store, but a token in a pattern-matched value
position that is not a valid integer raises a `ValueError` (Format-B register
line `[0] foo`, Format-A CPU register token `AX:foo`), a Format-B head line
consisting solely of colon-terminated pairs (`IP: 5`) overruns the token list
(`IndexError`), and a Format-A CPU register letter below `A` indexes the
register list negatively out of range (`0X:5`, `IndexError`). -/
theorem c2_amended_tolerance :
    parse_mabe_trace ["hello world", "xyz 1 2", "", "[0]x 3", "(IP: 1"] = .ok [] ∧
    parse_avida_trace ["hello world", "U: -1", "CPUx IP:3"] = .ok [] ∧
    parse_mabe_trace ["[0]", "[0] foo"] = .error "ValueError" ∧
    parse_avida_trace ["U:-1", "CPU AX:foo"] = .error "ValueError" ∧
    parse_mabe_trace ["[0]", "IP: 5"] = .error "IndexError" ∧
    parse_avida_trace ["U:-1", "CPU 0X:5"] = .error "IndexError" := by decide

/-! ## Helper lemmas about the comparator loops -/

theorem getElem?_isSome_of_lt {α : Type} {l : List α} {n : Nat} (h : n < l.length) :
    l[n]?.isSome := by
  simp [List.getElem?_eq_getElem h]

theorem lt_of_getElem?_isSome {α : Type} {l : List α} {n : Nat} (h : l[n]?.isSome) :
    n < l.length := by
  by_contra hc
  rw [List.getElem?_eq_none_iff.mpr (by omega)] at h
  simp at h

/-- If the registers agree (with both sides defined) on indices
`r ≤ k < r + fuel`, the register loop from `r` with `fuel` iterations left
falls through with no event. -/
theorem regLoopAux_ok_none (a b : List Int) (step : Nat) :
    ∀ (fuel r : Nat),
      (∀ k, r ≤ k → k < r + fuel → a[k]? = b[k]? ∧ a[k]?.isSome) →
      regLoopAux a b step r fuel = .ok none := by
  intro fuel
  induction fuel with
  | zero => intro r _; rfl
  | succ n ih =>
    intro r h
    obtain ⟨heq, hs⟩ := h r (Nat.le_refl r) (by omega)
    cases hv : a[r]? with
    | none => rw [hv] at hs; simp at hs
    | some v =>
      have hb : b[r]? = some v := by rw [← heq, hv]
      simp only [regLoopAux, hv, hb]
      rw [if_neg (by simp : ¬ v ≠ v)]
      exact ih (r + 1) (fun k h1 h2 => h k (by omega) (by omega))

/-- The register loop from index 0 falls through when registers 0..5 agree. -/
theorem regLoop_ok_none (a b : List Int) (step : Nat)
    (h : ∀ k, k < 6 → a[k]? = b[k]? ∧ a[k]?.isSome) :
    regLoop a b step = .ok none :=
  regLoopAux_ok_none a b step 6 0 (fun k h1 h2 => h k (by omega))

/-- If every head of the first map is present in the second with an equal
value, the head loop falls through with no event. -/
theorem headLoop_none (b : HeadMap) (step : Nat) :
    ∀ a : HeadMap, (∀ kv ∈ a, dictGet? b kv.1 = some kv.2) →
    headLoop a b step = none := by
  intro a
  induction a with
  | nil => intro _; rfl
  | cons kv rest ih =>
    intro h
    have hk := h kv (List.mem_cons_self _ _)
    obtain ⟨k, v⟩ := kv
    simp only [headLoop, hk]
    simp only [if_neg (by simp : ¬ v ≠ v)]
    exact ih (fun kv hkv => h kv (List.mem_cons_of_mem _ hkv))

/-- In a map with no duplicate keys (the invariant of a Python dict), looking
up the key of any entry returns that entry's value. -/
theorem dictGet?_self (a : HeadMap) (h : (a.map Prod.fst).Nodup) :
    ∀ kv ∈ a, dictGet? a kv.1 = some kv.2 := by
  induction a with
  | nil => intro kv hkv; simp at hkv
  | cons p rest ih =>
    have h' : (p.1 :: rest.map Prod.fst).Nodup := by simpa using h
    obtain ⟨hnot, hrest⟩ := List.nodup_cons.mp h'
    intro kv hkv
    rcases List.mem_cons.mp hkv with hkv | hkv
    · subst hkv
      simp [dictGet?, List.find?]
    · have hne : p.1 ≠ kv.1 := by
        intro he
        exact hnot (he ▸ List.mem_map_of_mem Prod.fst hkv)
      have : (p.1 == kv.1) = false := by simpa using hne
      simp only [dictGet?, List.find?, this]
      exact ih hrest kv hkv

/-- A key that is not a member of a map looks up to nothing. -/
theorem dictGet?_eq_none (b : HeadMap) (k : String) (h : dictMem b k = false) :
    dictGet? b k = none := by
  induction b with
  | nil => rfl
  | cons p rest ih =>
    simp only [dictMem, List.any_cons, Bool.or_eq_false_iff] at h
    simp only [dictGet?, List.find?, h.1]
    exact ih (by simp [dictMem, h.2])

/-- Any entry's key is a member of its map. -/
theorem dictMem_of_mem (a : HeadMap) (kv : String × Int) (h : kv ∈ a) :
    dictMem a kv.1 = true := by
  simp only [dictMem, List.any_eq_true]
  exact ⟨kv, h, by simp⟩

/-- `regsClean` unpacked: wherever registers 0..5 both exist, they agree. -/
theorem regsClean_spec (a b : List Int) (h : regsClean a b = true) :
    ∀ r < 6, ∀ v w : Int, a[r]? = some v → b[r]? = some w → v = w := by
  intro r hr v w hv hw
  have := List.all_eq_true.mp h r (List.mem_range.mpr hr)
  rw [hv, hw] at this
  simpa using this

/-- `headsClean` unpacked: every head of the first map is in the second with
an equal value. -/
theorem headsClean_spec (a b : HeadMap) (h : headsClean a b = true) :
    ∀ kv ∈ a, dictGet? b kv.1 = some kv.2 := by
  intro kv hkv
  have := List.all_eq_true.mp h kv hkv
  simpa using this

/-- A clean step whose snapshots both carry at least six registers passes both
comparator loops with no event. -/
theorem checkStep_ok_none (x y : OrgState) (step : Nat)
    (hc : stepClean x y = true)
    (hx : 6 ≤ x.regs.length) (hy : 6 ≤ y.regs.length) :
    checkStep x y step = .ok none := by
  obtain ⟨hr, hh⟩ : regsClean x.regs y.regs = true ∧
      headsClean x.heads y.heads = true := by simpa [stepClean] using hc
  have h1 : regLoop x.regs y.regs step = .ok none := by
    apply regLoop_ok_none
    intro k hk
    have hxs : x.regs[k]?.isSome := getElem?_isSome_of_lt (by omega)
    have hys : y.regs[k]?.isSome := getElem?_isSome_of_lt (by omega)
    cases hv : x.regs[k]? with
    | none => rw [hv] at hxs; simp at hxs
    | some v =>
      cases hw : y.regs[k]? with
      | none => rw [hw] at hys; simp at hys
      | some w =>
        have := regsClean_spec x.regs y.regs hr k hk v w hv hw
        subst this
        simp
  have h2 : headLoop x.heads y.heads step = none :=
    headLoop_none _ _ _ (headsClean_spec _ _ hh)
  simp [checkStep, h1, h2]

/-- The step loop when the second list is strictly shorter and every paired
step is clean with full registers: it stops with "exhausted" exactly when the
second list runs out. -/
theorem compareSteps_exhausted :
    ∀ (ys xs : List OrgState) (step : Nat),
      ys.length < xs.length →
      (∀ p ∈ xs.zip ys,
        stepClean p.1 p.2 = true ∧ 6 ≤ p.1.regs.length ∧ 6 ≤ p.2.regs.length) →
      compareSteps xs ys step = .ok (some (.exhausted (step + ys.length))) := by
  intro ys
  induction ys with
  | nil =>
    intro xs step hlt _
    match xs with
    | [] => simp at hlt
    | x :: xs' => rfl
  | cons y ys' ih =>
    intro xs step hlt h
    match xs with
    | [] => simp at hlt
    | x :: xs' =>
      have hp := h (x, y) (by simp)
      have hcs : checkStep x y step = .ok none :=
        checkStep_ok_none _ _ _ hp.1 hp.2.1 hp.2.2
      simp only [compareSteps, hcs]
      rw [ih xs' (step + 1) (by simp only [List.length_cons] at hlt; omega)
        (fun p hp2 => h p (by simp [hp2]))]
      simp only [List.length_cons]
      have heq2 : step + 1 + ys'.length = step + (ys'.length + 1) := by omega
      rw [heq2]

/-- The self-comparison step loop under the per-snapshot wellformedness the
parsers and spec guarantee (at least six registers for comparability, unique
head keys as in a Python dict). -/
theorem compareSteps_self :
    ∀ (xs : List OrgState) (step : Nat),
      (∀ st ∈ xs, 6 ≤ st.regs.length ∧ (st.heads.map Prod.fst).Nodup) →
      compareSteps xs xs step = .ok none := by
  intro xs
  induction xs with
  | nil => intro step _; rfl
  | cons x xs' ih =>
    intro step h
    have hx := h x (List.mem_cons_self _ _)
    have hregs : regsClean x.regs x.regs = true := by
      apply List.all_eq_true.mpr
      intro r _
      cases hv : x.regs[r]? <;> simp
    have hheads : headsClean x.heads x.heads = true := by
      apply List.all_eq_true.mpr
      intro kv hkv
      simp [dictGet?_self x.heads hx.2 kv hkv]
    have hclean : stepClean x x = true := by
      simp [stepClean, hregs, hheads]
    have hcs : checkStep x x step = .ok none :=
      checkStep_ok_none _ _ _ hclean hx.1 hx.1
    simp only [compareSteps, hcs]
    exact ih (step + 1) (fun st hst => h st (List.mem_cons_of_mem _ hst))

/-- C3 (counterexample): comparing a Trace Store against itself is not always
error-free: if a recorded snapshot carries fewer than six registers (here
none), the register loop's `regs[0]` raises an `IndexError` instead of
reporting "no divergence". -/
theorem c3_self_compare_raises :
    0 < shortStore.length ∧
    parse_mabe_trace ["[0]"] = .ok shortStore ∧
    compare_run shortStore shortStore 0 = .error "IndexError" := by decide

/-- C3 (amended): comparing a Trace Store against itself at a valid organism
index reports "no divergence" (the comparator falls through, prints no
category and returns `None`), provided every recorded snapshot of that
organism carries at least six registers and has no duplicate head keys (the
Python-dict wellformedness every parser-produced store has). -/
theorem c3_amended_self_agree (S : Store) (i : Nat) (xs : List OrgState)
    (hi : S[i]? = some xs)
    (h : ∀ st ∈ xs, 6 ≤ st.regs.length ∧ (st.heads.map Prod.fst).Nodup) :
    compare_run S S i = .ok none := by
  cases xs with
  | nil => simp [compare_run, hi]
  | cons x xs' =>
    simp only [compare_run, hi]
    exact compareSteps_self (x :: xs') 0 h

/-- C3 (witness): the amended self-comparison theorem at a concrete
one-snapshot store with six registers. -/
theorem c3_amended_self_agree_witness :
    compare_run [[fullSnap]] [[fullSnap]] 0 = .ok none :=
  c3_amended_self_agree [[fullSnap]] 0 [fullSnap] (by decide) (by decide)

/-- A successful non-boundary Format-A line never touches `org_idx` or the
store: the `U:-1` branch is skipped, and the `CPU` / `R-Head:` branches only
update the running `heads` and `regs`. -/
theorem avidaStep_fields (st st' : ParseState) (l : String)
    (hb : isAvidaBoundary l = false) (h : avidaStep st l = .ok st') :
    st'.org_idx = st.org_idx ∧ st'.org_states = st.org_states := by
  unfold avidaStep at h
  by_cases he : (pyStrip l).data.isEmpty
  · rw [if_pos he] at h
    cases h
    exact ⟨rfl, rfl⟩
  · rw [if_neg he] at h
    cases hp : pySplit (pyStrip l) with
    | nil =>
      rw [hp] at h
      exact absurd h (by simp)
    | cons t0 rest =>
      rw [hp] at h
      simp only at h
      have hcond : ((t0 :: rest).length == 1 && t0 == "U:-1") = false := by
        cases hc : ((t0 :: rest).length == 1 && t0 == "U:-1") with
        | false => rfl
        | true =>
          obtain ⟨h1, h2⟩ := Bool.and_eq_true_iff.mp hc
          have hr : rest = [] := by simpa using h1
          have ht : t0 = "U:-1" := by simpa using h2
          rw [isAvidaBoundary, hp, hr, ht] at hb
          simp at hb
      rw [hcond] at h
      simp only [Bool.false_eq_true, if_false] at h
      by_cases hcpu : t0 == "CPU"
      · rw [if_pos hcpu] at h
        cases hf : (t0 :: rest).foldlM avidaCPUTok (st.heads, st.regs) with
        | error e => rw [hf] at h; exact absurd h (by simp)
        | ok pr =>
          rw [hf] at h
          cases h
          exact ⟨rfl, rfl⟩
      · rw [if_neg hcpu] at h
        by_cases hrh : strTake t0 7 == "R-Head:"
        · rw [if_pos hrh] at h
          cases hf : (t0 :: rest).foldlM avidaHeadTok st.heads with
          | error e => rw [hf] at h; exact absurd h (by simp)
          | ok hs =>
            rw [hf] at h
            cases h
            exact ⟨rfl, rfl⟩
        · rw [if_neg hrh] at h
          cases h
          exact ⟨rfl, rfl⟩

/-- Over any run of successful non-boundary lines, the Format-A line loop
leaves `org_idx` and the store exactly as they started. -/
theorem avidaFold_fields :
    ∀ (lines : List String) (st0 st : ParseState),
      (∀ l ∈ lines, isAvidaBoundary l = false) →
      lines.foldlM avidaStep st0 = .ok st →
      st.org_idx = st0.org_idx ∧ st.org_states = st0.org_states := by
  intro lines
  induction lines with
  | nil =>
    intro st0 st _ h
    cases h
    exact ⟨rfl, rfl⟩
  | cons l ls ih =>
    intro st0 st hb h
    rw [List.foldlM_cons] at h
    cases hstep : avidaStep st0 l with
    | error e =>
      rw [hstep] at h
      exact absurd h (by simp [Bind.bind, Except.bind])
    | ok st1 =>
      rw [hstep] at h
      have h1 := avidaStep_fields st0 st1 l (hb l (List.mem_cons_self _ _)) hstep
      have h2 := ih st1 st (fun x hx => hb x (List.mem_cons_of_mem _ hx))
        (by simpa [Bind.bind, Except.bind] using h)
      exact ⟨h2.1.trans h1.1, h2.2.trans h1.2⟩

/-- C4 (counterexample): a Format-A input with CPU and head-data lines but no
`U:-1` boundary marker produces an empty Trace Store — `org_idx` stays `None`,
so the end-of-input flush never fires and no snapshot is recorded. -/
theorem c4_no_boundary_empty_store :
    parse_avida_trace ["CPU IP:3 AX:10 BX:0", "R-Head:5 W-Head:6 F-Head:0"] =
      .ok [] := by decide

/-- C4 (amended): without a start-of-update boundary line the Format-A parser
records nothing at all — `org_idx` stays `None`, so the end-of-input flush
never fires: every successful parse of a boundary-free input yields the empty
Trace Store (no implicit organism 0 exists). -/
theorem c4_amended_no_boundary (lines : List String)
    (hb : ∀ l ∈ lines, isAvidaBoundary l = false) :
    ∀ S, parse_avida_trace lines = .ok S → S = [] := by
  intro S h
  unfold parse_avida_trace avidaFold at h
  cases hf : lines.foldlM avidaStep initState with
  | error e =>
    rw [hf] at h
    exact absurd h (by simp [Except.map])
  | ok st =>
    rw [hf] at h
    have hfields := avidaFold_fields lines initState st hb hf
    have hS : S = finalFlush st := by
      simpa [Except.map] using h.symm
    rw [hS, finalFlush, hfields.1]
    simpa [initState] using hfields.2

/-- C4 (witness): the amended theorem at the spec's own boundary-free input;
the parse succeeds and its store is empty. -/
theorem c4_amended_no_boundary_witness :
    parse_avida_trace ["CPU IP:3 AX:10 BX:0", "R-Head:5"] = .ok [] ∧
    ([] : Store) = [] :=
  ⟨by decide,
    c4_amended_no_boundary ["CPU IP:3 AX:10 BX:0", "R-Head:5"] (by decide) []
      (by decide)⟩

/-- C5 (counterexample): the comparator's return value does not let the caller
recover the divergence category — a second-trace-exhausted outcome and a
register-mismatch outcome at the same step return exactly the same value
(`1`), the category being reported only on console output. -/
theorem c5_category_not_returned :
    compare_run [[fullSnap, fullSnap]] [[fullSnap]] 0 =
      .ok (some (.exhausted 1)) ∧
    compare_run [[fullSnap, fullSnapB]] [[fullSnap, fullSnap]] 0 =
      .ok (some (.regMismatch 0 1)) ∧
    compare_org_trace [[fullSnap, fullSnap]] [[fullSnap]] 0 = .ok (some 1) ∧
    compare_org_trace [[fullSnap, fullSnapB]] [[fullSnap, fullSnap]] 0 =
      .ok (some 1) := by decide

/-- C5 (amended): the comparator's return value carries only the divergence
step index — whenever a diagnostic event is printed, the returned value is
exactly that event's step, full agreement returns the distinct sentinel
`None`, and a divergence return is never the sentinel; the category itself
(register index / head name / second-exhausted) is printed but not returned,
so it is not recoverable from the returned value. -/
theorem c5_amended_return_value :
    (∀ (s o : Store) (i : Nat) (e : CmpEvent),
        compare_run s o i = .ok (some e) →
        compare_org_trace s o i = .ok (some e.step)) ∧
    (∀ (s o : Store) (i : Nat),
        compare_run s o i = .ok none → compare_org_trace s o i = .ok none) ∧
    (∀ (s o : Store) (i : Nat) (e : CmpEvent),
        compare_run s o i = .ok (some e) →
        compare_org_trace s o i ≠ .ok none) := by
  refine ⟨?_, ?_, ?_⟩
  · intro s o i e h
    simp [compare_org_trace, h, Except.map]
  · intro s o i h
    simp [compare_org_trace, h, Except.map]
  · intro s o i e h
    simp [compare_org_trace, h, Except.map]

/-- C5 (witness): the amended return-value theorem at a concrete
second-trace-exhausted comparison: the returned value is the step `1`. -/
theorem c5_amended_return_value_witness :
    compare_org_trace [[fullSnap, fullSnap]] [[fullSnap]] 0 = .ok (some 1) :=
  c5_amended_return_value.1 [[fullSnap, fullSnap]] [[fullSnap]] 0
    (.exhausted 1) (by decide)

/-- C6: on the Format-A scenario-1 input `U:-1`,
`CPU ... IP:3 AX:10 BX:0`, `R-Head:5 W-Head:6 F-Head:0`, the end-of-input
flush yields exactly one snapshot for organism 0 with heads
`IP ↦ 3`, `RH ↦ 5`, `WH ↦ 6`, `FH ↦ 0` and registers `[10, 0]`. -/
theorem c6_format_a_scenario :
    parse_avida_trace ["U:-1", "CPU ... IP:3 AX:10 BX:0",
        "R-Head:5 W-Head:6 F-Head:0"] =
      .ok [[⟨0, [("IP", 3), ("RH", 5), ("WH", 6), ("FH", 0)], [10, 0]⟩]] := by
  decide

/-- C7 (counterexample): with the second store strictly shorter (one step
versus two) and no mismatch among the compared registers and heads at the one
compared step (`stepClean`), the comparator still does not report
second-trace-exhausted: the snapshots carry no registers, so the register loop
raises an `IndexError` first. -/
theorem c7_short_trace_raises :
    (([[emptySnap]] : Store).getD 0 []).length <
        (([[emptySnap, emptySnap]] : Store).getD 0 []).length ∧
    stepClean emptySnap emptySnap = true ∧
    compare_run [[emptySnap, emptySnap]] [[emptySnap]] 0 =
      .error "IndexError" := by decide

/-- C7 (amended): when the second store records strictly fewer steps for
organism `i` than the first, no mismatch exists among the compared registers
and heads at any paired step, and — additionally to the claim — every paired
snapshot carries at least six registers (otherwise the register loop raises
instead), the comparator reports second-trace-exhausted at a step equal to the
second store's recorded length. -/
theorem c7_amended_exhausted (s o : Store) (i : Nat) (xs ys : List OrgState)
    (hs : s[i]? = some xs) (ho : o[i]? = some ys)
    (hlt : ys.length < xs.length)
    (h : ∀ p ∈ xs.zip ys,
      stepClean p.1 p.2 = true ∧ 6 ≤ p.1.regs.length ∧ 6 ≤ p.2.regs.length) :
    compare_run s o i = .ok (some (.exhausted ys.length)) := by
  cases xs with
  | nil => simp at hlt
  | cons x xs' =>
    simp only [compare_run, hs, ho]
    have := compareSteps_exhausted ys (x :: xs') 0 hlt h
    simpa using this

/-- C7 (witness): the amended exhaustion theorem at concrete stores of two
steps versus one, all snapshots fully registered and agreeing. -/
theorem c7_amended_exhausted_witness :
    compare_run [[fullSnap, fullSnap]] [[fullSnap]] 0 =
      .ok (some (.exhausted 1)) :=
  c7_amended_exhausted [[fullSnap, fullSnap]] [[fullSnap]] 0
    [fullSnap, fullSnap] [fullSnap] (by decide) (by decide) (by decide)
    (by decide)

/-- Any event the head loop produces is head-based: a missing head or a head
value mismatch, always at the loop's step. -/
theorem headLoop_shape :
    ∀ (a b : HeadMap) (step : Nat) (e : CmpEvent),
      headLoop a b step = some e →
      ∃ k, e = .headMissing k step ∨ e = .headMismatch k step := by
  intro a
  induction a with
  | nil => intro b step e h; exact absurd h (by simp [headLoop])
  | cons kv rest ih =>
    intro b step e h
    obtain ⟨k, v⟩ := kv
    simp only [headLoop] at h
    cases hg : dictGet? b k with
    | none =>
      rw [hg] at h
      exact ⟨k, Or.inl (by simpa using h.symm)⟩
    | some w =>
      rw [hg] at h
      have h' : (if v ≠ w then some (CmpEvent.headMismatch k step)
          else headLoop rest b step) = some e := h
      by_cases hvw : v ≠ w
      · rw [if_pos hvw] at h'
        exact ⟨k, Or.inr (by simpa using h'.symm)⟩
      · rw [if_neg hvw] at h'
        exact ih b step e h'

/-- The head loop reports the first offending key of the first snapshot's
insertion order: if every earlier key is present with an equal value and key
`k` is absent from the second map, the report is "`k` missing". -/
theorem headLoop_first_missing :
    ∀ (pre : HeadMap) (k : String) (v : Int) (rest b : HeadMap) (step : Nat),
      (∀ kv ∈ pre, dictGet? b kv.1 = some kv.2) → dictMem b k = false →
      headLoop (pre ++ (k, v) :: rest) b step = some (.headMissing k step) := by
  intro pre
  induction pre with
  | nil =>
    intro k v rest b step _ hk
    simp only [List.nil_append, headLoop, dictGet?_eq_none b k hk]
  | cons kv pre' ih =>
    intro k v rest b step h hk
    have hkv := h kv (List.mem_cons_self _ _)
    obtain ⟨k0, v0⟩ := kv
    simp only [List.cons_append, headLoop, hkv]
    rw [if_neg (by simp : ¬ v0 ≠ v0)]
    exact ih k v rest b step (fun p hp => h p (List.mem_cons_of_mem _ hp)) hk

/-- Registers appended beyond the first six are never inspected: the register
loop is unchanged by extending either snapshot's registers when both already
carry at least six. -/
theorem regLoopAux_append (a b a2 b2 : List Int) (step : Nat)
    (ha : 6 ≤ a.length) (hb : 6 ≤ b.length) :
    ∀ (fuel r : Nat), r + fuel ≤ 6 →
      regLoopAux (a ++ a2) (b ++ b2) step r fuel = regLoopAux a b step r fuel := by
  intro fuel
  induction fuel with
  | zero => intro r _; rfl
  | succ n ih =>
    intro r hr
    have h1 : (a ++ a2)[r]? = a[r]? := List.getElem?_append_left (by omega)
    have h2 : (b ++ b2)[r]? = b[r]? := List.getElem?_append_left (by omega)
    simp only [regLoopAux, h1, h2]
    cases hv : a[r]? with
    | none => rfl
    | some v =>
      cases hw : b[r]? with
      | none => rfl
      | some w =>
        show (if v ≠ w then Except.ok (some (CmpEvent.regMismatch r step))
            else regLoopAux (a ++ a2) (b ++ b2) step (r + 1) n) =
          (if v ≠ w then Except.ok (some (CmpEvent.regMismatch r step))
            else regLoopAux a b step (r + 1) n)
        by_cases hvw : v ≠ w
        · rw [if_pos hvw, if_pos hvw]
        · rw [if_neg hvw, if_neg hvw]
          exact ih (r + 1) (by omega)

/-- Appending entries whose keys are not members of the map does not change
the lookup of an absent-from-the-extension key. -/
theorem dictGet?_append (ex : HeadMap) (k : String) (h : dictMem ex k = false) :
    ∀ b : HeadMap, dictGet? (b ++ ex) k = dictGet? b k := by
  intro b
  induction b with
  | nil =>
    simp only [List.nil_append]
    rw [dictGet?_eq_none ex k h]
    rfl
  | cons p rest ih =>
    cases hpk : (p.1 == k) with
    | true =>
      simp only [List.cons_append, dictGet?, List.find?, hpk]
    | false =>
      simp only [List.cons_append, dictGet?, List.find?, hpk]
      exact ih

/-- Head keys present only in the second snapshot are never inspected: the
head loop is unchanged by appending to the second map entries whose keys do
not occur in the first map. -/
theorem headLoop_append (ex : HeadMap) (step : Nat) :
    ∀ (a b : HeadMap), (∀ kv ∈ ex, dictMem a kv.1 = false) →
      headLoop a (b ++ ex) step = headLoop a b step := by
  intro a
  induction a with
  | nil => intro b _; rfl
  | cons p rest ih =>
    intro b hex
    obtain ⟨k, v⟩ := p
    have hkex : dictMem ex k = false := by
      cases hkx : dictMem ex k with
      | false => rfl
      | true =>
        obtain ⟨kv, hkv, hbeq⟩ := List.any_eq_true.mp hkx
        have heq : kv.1 = k := by simpa using hbeq
        have := hex kv hkv
        rw [heq] at this
        have hmem : dictMem ((k, v) :: rest) k = true := by
          simp [dictMem]
        rw [this] at hmem
        exact absurd hmem (by simp)
    simp only [headLoop, dictGet?_append ex k hkex b]
    cases hg : dictGet? b k with
    | none => rfl
    | some w =>
      show (if v ≠ w then some (CmpEvent.headMismatch k step)
          else headLoop rest (b ++ ex) step) =
        (if v ≠ w then some (CmpEvent.headMismatch k step)
          else headLoop rest b step)
      by_cases hvw : v ≠ w
      · rw [if_pos hvw, if_pos hvw]
      · rw [if_neg hvw, if_neg hvw]
        exact ih b (fun kv hkv => by
          have := hex kv hkv
          cases hm : dictMem rest kv.1 with
          | false => rfl
          | true =>
            have hcons : dictMem ((k, v) :: rest) kv.1 = true := by
              have hm' : List.any rest (fun p => p.1 == kv.1) = true := hm
              simp only [dictMem, List.any_cons, hm', Bool.or_true]
            rw [hcons] at this
            exact absurd this (by simp))

/-- When registers 0..5 agree (the first snapshot carrying at least six), the
register loop passes and the comparator's verdict is the head loop's. -/
theorem checkStep_to_headLoop (x y : OrgState) (step : Nat)
    (hx : 6 ≤ x.regs.length)
    (hagree : ∀ r < 6, x.regs[r]? = y.regs[r]?) :
    checkStep x y step = .ok (headLoop x.heads y.heads step) := by
  have h1 : regLoop x.regs y.regs step = .ok none := by
    apply regLoop_ok_none
    intro k hk
    exact ⟨hagree k hk, getElem?_isSome_of_lt (by omega)⟩
  simp [checkStep, h1]

/-- C8 (counterexample): registers 0..5 equal and head `FH` present in the
first snapshot but absent from the second, yet the comparator does not report
`FH` missing — the earlier head `IP` in the first snapshot's key order has a
different value, so a head-mismatch on `IP` is reported instead. -/
theorem c8_head_mismatch_preempts :
    headSnapA.regs = headSnapB.regs ∧
    dictMem headSnapA.heads "FH" = true ∧
    dictMem headSnapB.heads "FH" = false ∧
    compare_run [[headSnapA]] [[headSnapB]] 0 =
      .ok (some (.headMismatch "IP" 0)) ∧
    compare_run [[headSnapA]] [[headSnapB]] 0 ≠
      .ok (some (.headMissing "FH" 0)) := by decide

/-- C8 (amended): at a compared step with registers 0..5 all equal, the
comparator's verdict is head-based, never register-based; the head it reports
is the first offending key in the first snapshot's insertion order — reported
missing when absent from the second snapshot, provided every earlier key of
the first snapshot is present in the second with an equal value; and the
verdict never inspects registers beyond index 5 nor head keys present only in
the second snapshot (appending either changes nothing). -/
theorem c8_amended_head_check :
    (∀ (x y : OrgState) (step : Nat) (e : CmpEvent),
        6 ≤ x.regs.length → (∀ r < 6, x.regs[r]? = y.regs[r]?) →
        checkStep x y step = .ok (some e) →
        ∃ k, e = .headMissing k step ∨ e = .headMismatch k step) ∧
    (∀ (x y : OrgState) (step : Nat) (pre rest : HeadMap) (k : String) (v : Int),
        6 ≤ x.regs.length → (∀ r < 6, x.regs[r]? = y.regs[r]?) →
        x.heads = pre ++ (k, v) :: rest →
        (∀ kv ∈ pre, dictGet? y.heads kv.1 = some kv.2) →
        dictMem y.heads k = false →
        checkStep x y step = .ok (some (.headMissing k step))) ∧
    (∀ (x y : OrgState) (step : Nat) (ra rb : List Int) (ex : HeadMap),
        6 ≤ x.regs.length → 6 ≤ y.regs.length →
        (∀ kv ∈ ex, dictMem x.heads kv.1 = false) →
        checkStep ⟨x.idx, x.heads, x.regs ++ ra⟩
            ⟨y.idx, y.heads ++ ex, y.regs ++ rb⟩ step =
          checkStep x y step) := by
  refine ⟨?_, ?_, ?_⟩
  · intro x y step e hx hagree h
    rw [checkStep_to_headLoop x y step hx hagree] at h
    exact headLoop_shape x.heads y.heads step e (by simpa using h)
  · intro x y step pre rest k v hx hagree hsplit hpre hmiss
    rw [checkStep_to_headLoop x y step hx hagree, hsplit,
      headLoop_first_missing pre k v rest y.heads step hpre hmiss]
  · intro x y step ra rb ex hx hy hex
    have hreg : regLoop (x.regs ++ ra) (y.regs ++ rb) step =
        regLoop x.regs y.regs step :=
      regLoopAux_append x.regs y.regs ra rb step hx hy 6 0 (by omega)
    show (match regLoop (x.regs ++ ra) (y.regs ++ rb) step with
      | .error e => .error e
      | .ok (some e) => .ok (some e)
      | .ok none => .ok (headLoop x.heads (y.heads ++ ex) step)) =
      checkStep x y step
    rw [hreg, headLoop_append ex step x.heads y.heads hex]
    rfl

/-- C8 (witness): the amended theorem's first-offending-head part at a
concrete pair whose only head `FH` is absent from the second snapshot. -/
theorem c8_amended_head_check_witness :
    checkStep ⟨0, [("FH", 5)], [0, 0, 0, 0, 0, 0]⟩
        ⟨0, [], [0, 0, 0, 0, 0, 0]⟩ 0 =
      .ok (some (.headMissing "FH" 0)) :=
  c8_amended_head_check.2.1 ⟨0, [("FH", 5)], [0, 0, 0, 0, 0, 0]⟩
    ⟨0, [], [0, 0, 0, 0, 0, 0]⟩ 0 [] [] "FH" 5 (by decide) (by decide) rfl
    (by simp) (by decide)

/-- When the registers agree wherever both exist and the shorter side runs out
before index 6, the register loop reaches the out-of-range index and raises. -/
theorem regLoopAux_min_error (a b : List Int) (step : Nat)
    (hagree : ∀ r < min a.length b.length, a[r]? = b[r]?) :
    ∀ (fuel r : Nat), r ≤ min a.length b.length →
      min a.length b.length < r + fuel →
      regLoopAux a b step r fuel = .error "IndexError" := by
  intro fuel
  induction fuel with
  | zero => intro r h1 h2; omega
  | succ n ih =>
    intro r h1 h2
    by_cases hrm : r = min a.length b.length
    · have hnone : a[r]? = none ∨ b[r]? = none := by
        rcases Nat.le_total a.length b.length with hab | hab
        · exact Or.inl (List.getElem?_eq_none_iff.mpr (by omega))
        · exact Or.inr (List.getElem?_eq_none_iff.mpr (by omega))
      rcases hnone with hn | hn
      · cases hb : b[r]? <;> simp only [regLoopAux, hn, hb]
      · cases ha : a[r]? <;> simp only [regLoopAux, hn, ha]
    · have hr : r < min a.length b.length := by omega
      have hva : r < a.length := by omega
      have hvb : r < b.length := by omega
      obtain ⟨v, hv⟩ : ∃ v, a[r]? = some v := ⟨a[r], List.getElem?_eq_getElem hva⟩
      have hw : b[r]? = some v := by rw [← hagree r hr, hv]
      simp only [regLoopAux, hv, hw]
      rw [if_neg (by simp : ¬ v ≠ v)]
      exact ih (r + 1) (by omega) (by omega)

/-- With both snapshots carrying at least six registers the register loop
never raises. -/
theorem regLoopAux_total (a b : List Int) (step : Nat)
    (ha : 6 ≤ a.length) (hb : 6 ≤ b.length) :
    ∀ (fuel r : Nat), r + fuel ≤ 6 →
      ∃ res, regLoopAux a b step r fuel = .ok res := by
  intro fuel
  induction fuel with
  | zero => intro r _; exact ⟨none, rfl⟩
  | succ n ih =>
    intro r hr
    obtain ⟨v, hv⟩ : ∃ v, a[r]? = some v :=
      ⟨a[r], List.getElem?_eq_getElem (by omega)⟩
    obtain ⟨w, hw⟩ : ∃ w, b[r]? = some w :=
      ⟨b[r], List.getElem?_eq_getElem (by omega)⟩
    simp only [regLoopAux, hv, hw]
    by_cases hvw : v ≠ w
    · exact ⟨some (.regMismatch r step), by rw [if_pos hvw]⟩
    · obtain ⟨res, hres⟩ := ih (r + 1) (by omega)
      exact ⟨res, by rw [if_neg hvw]; exact hres⟩

/-- With both snapshots carrying at least six registers a step check never
raises. -/
theorem checkStep_total (x y : OrgState) (step : Nat)
    (hx : 6 ≤ x.regs.length) (hy : 6 ≤ y.regs.length) :
    ∃ res, checkStep x y step = .ok res := by
  obtain ⟨res, hres⟩ := regLoopAux_total x.regs y.regs step hx hy 6 0 (by omega)
  cases res with
  | none =>
    exact ⟨headLoop x.heads y.heads step, by simp [checkStep, regLoop] at hres ⊢; rw [hres]⟩
  | some e =>
    exact ⟨some e, by simp [checkStep, regLoop] at hres ⊢; rw [hres]⟩

/-- With every snapshot of both traces carrying at least six registers, the
step loop never raises. -/
theorem compareSteps_total :
    ∀ (xs ys : List OrgState) (step : Nat),
      (∀ st ∈ xs, 6 ≤ st.regs.length) → (∀ st ∈ ys, 6 ≤ st.regs.length) →
      ∃ res, compareSteps xs ys step = .ok res := by
  intro xs
  induction xs with
  | nil => intro ys step _ _; exact ⟨none, rfl⟩
  | cons x xs' ih =>
    intro ys step hxs hys
    cases ys with
    | nil => exact ⟨some (.exhausted step), rfl⟩
    | cons y ys' =>
      obtain ⟨res, hres⟩ := checkStep_total x y step
        (hxs x (List.mem_cons_self _ _)) (hys y (List.mem_cons_self _ _))
      cases res with
      | some e =>
        exact ⟨some e, by simp only [compareSteps, hres]⟩
      | none =>
        obtain ⟨res2, hres2⟩ := ih ys' (step + 1)
          (fun st hst => hxs st (List.mem_cons_of_mem _ hst))
          (fun st hst => hys st (List.mem_cons_of_mem _ hst))
        exact ⟨res2, by simp only [compareSteps, hres]; exact hres2⟩

/-- Presence in a list is downward closed on indices. -/
theorem getElem?_isSome_downward {α : Type} (L : List α) (i j : Nat)
    (hj : j ≤ i) (hi : L[i]?.isSome) : L[j]?.isSome :=
  getElem?_isSome_of_lt (by have := lt_of_getElem?_isSome hi; omega)

/-- C9: the store is downward closed after every flush and at every point of
either parse — the flush loop fills every index between the old length and the
flushed organism's index with an empty sequence (never leaving it undefined),
and after any prefix of lines of either parser, as well as after the final
flush of a whole parse, an organism index being present implies every smaller
index is present too. -/
theorem c9_store_downward_closed :
    (∀ (states : Store) (i : Nat) (st : OrgState) (j : Nat),
        states.length ≤ j → j < i → (flushOrg states i st)[j]? = some []) ∧
    (∀ (lines : List String) (n : Nat) (st : ParseState),
        mabeFold (lines.take n) = .ok st →
        ∀ i j : Nat, j ≤ i → st.org_states[i]?.isSome →
          st.org_states[j]?.isSome) ∧
    (∀ (lines : List String) (n : Nat) (st : ParseState),
        avidaFold (lines.take n) = .ok st →
        ∀ i j : Nat, j ≤ i → st.org_states[i]?.isSome →
          st.org_states[j]?.isSome) ∧
    (∀ (lines : List String) (S : Store), parse_mabe_trace lines = .ok S →
        ∀ i j : Nat, j ≤ i → S[i]?.isSome → S[j]?.isSome) ∧
    (∀ (lines : List String) (S : Store), parse_avida_trace lines = .ok S →
        ∀ i j : Nat, j ≤ i → S[i]?.isSome → S[j]?.isSome) := by
  refine ⟨?_, ?_, ?_, ?_, ?_⟩
  · intro states i st j hlen hlt
    have hij : i ≠ j := by omega
    rw [flushOrg]
    rw [List.getElem?_set_ne hij]
    rw [growTo, List.getElem?_append_right hlen]
    have : j - states.length < i + 1 - states.length := by omega
    simp [List.getElem?_replicate, this]
  · intro lines n st _ i j hj hi
    exact getElem?_isSome_downward _ i j hj hi
  · intro lines n st _ i j hj hi
    exact getElem?_isSome_downward _ i j hj hi
  · intro lines S _ i j hj hi
    exact getElem?_isSome_downward _ i j hj hi
  · intro lines S _ i j hj hi
    exact getElem?_isSome_downward _ i j hj hi

/-- C9 (witness): the theorem at a concrete flush to index 2 of an empty
store (the gap indices 0 and 1 become empty sequences) and at the concrete
parse of the single boundary line `[2]`. -/
theorem c9_store_downward_closed_witness :
    (flushOrg [] 2 ⟨2, [], []⟩)[0]? = some [] ∧
    (([[], [], [⟨2, [], []⟩]] : Store))[1]?.isSome = true :=
  ⟨c9_store_downward_closed.1 [] 2 ⟨2, [], []⟩ 0 (by decide) (by decide),
    c9_store_downward_closed.2.2.2.1 ["[2]"] [[], [], [⟨2, [], []⟩]]
      (by decide) 2 1 (by decide) (by decide)⟩

/-- C10 (counterexample): a compared snapshot with fewer than six registers
does not always make the register loop raise — here the first snapshot has a
single register differing from the second's register 0, so the loop reports a
register mismatch before reaching the out-of-range index. -/
theorem c10_short_regs_mismatch_first :
    (⟨0, [], [1]⟩ : OrgState).regs.length < 6 ∧
    compare_run [[⟨0, [], [1]⟩]] [[⟨0, [], [2, 0, 0, 0, 0, 0]⟩]] 0 =
      .ok (some (.regMismatch 0 0)) := by decide

/-- C10 (amended): the register loop raises an out-of-range `IndexError` when
either compared register sequence is shorter than six — provided the registers
agree wherever both exist, so no mismatch can stop the loop first — and,
conversely, the comparator returns a result (never raises) whenever every
recorded snapshot of the organism in both stores carries at least six
registers. -/
theorem c10_amended_register_loop :
    (∀ (x y : OrgState) (step : Nat),
        (x.regs.length < 6 ∨ y.regs.length < 6) →
        (∀ r < min x.regs.length y.regs.length, x.regs[r]? = y.regs[r]?) →
        checkStep x y step = .error "IndexError") ∧
    (∀ (s o : Store) (i : Nat) (xs ys : List OrgState),
        s[i]? = some xs → o[i]? = some ys →
        (∀ st ∈ xs, 6 ≤ st.regs.length) → (∀ st ∈ ys, 6 ≤ st.regs.length) →
        ∃ res, compare_run s o i = .ok res) := by
  constructor
  · intro x y step hshort hagree
    have herr : regLoop x.regs y.regs step = .error "IndexError" :=
      regLoopAux_min_error x.regs y.regs step hagree 6 0 (by omega) (by omega)
    simp [checkStep, herr]
  · intro s o i xs ys hs ho hxs hys
    cases xs with
    | nil => exact ⟨none, by simp [compare_run, hs]⟩
    | cons x xs' =>
      obtain ⟨res, hres⟩ := compareSteps_total (x :: xs') ys 0 hxs hys
      exact ⟨res, by simp only [compare_run, hs, ho]; exact hres⟩

/-- C10 (witness): the amended theorem's raising part at a concrete pair — a
five-register snapshot, agreeing where defined with a six-register one,
raises. -/
theorem c10_amended_register_loop_witness :
    checkStep ⟨0, [], [1, 2, 3, 4, 5]⟩ ⟨0, [], [1, 2, 3, 4, 5, 6]⟩ 0 =
      .error "IndexError" :=
  c10_amended_register_loop.1 ⟨0, [], [1, 2, 3, 4, 5]⟩
    ⟨0, [], [1, 2, 3, 4, 5, 6]⟩ 0 (Or.inl (by decide)) (by decide)

end TraceRef
